import Mathlib

set_option maxRecDepth 65536

namespace Exa

/-!
Verification of the `exa` Deno proxy repository.

The repository consists of several near-identical Deno Deploy entry points
(`src/main.ts` and the unnamed source file with three further variants).
Each one forwards inbound HTTP requests to a fixed upstream origin
`https://ecsc-expat.sy:8443`, then rewrites the response (cookie
sanitisation, Location rewriting, CORS stamping, HTML body rewriting).

The development below is a shallow embedding of that code.  Strings are
modelled as `List Char` (a Lean `String` is carried on the wrappers), and
the JavaScript string primitives used by the source (`split`, `trim`,
`toLowerCase`, `join`, `replace`, `includes`) are given executable
definitions mirroring their semantics.  Platform pieces the source calls
into (the WHATWG `URL` constructor, `Headers`, UTF-8 text decoding of
response bodies) are modelled explicitly where a claim depends on them.
-/

/-- ASCII whitespace recognised by JavaScript `String.prototype.trim`
(the common subset actually occurring in header values). -/
def isJsWs (c : Char) : Bool :=
  c == ' ' || c == '\t' || c == '\n' || c == '\r' || c == '\x0b' || c == '\x0c'

/-- ASCII lower-casing of one character, as `String.prototype.toLowerCase`
acts on the ASCII range (the only range compared against in the source). -/
def lowerChar (c : Char) : Char :=
  if 'A' ≤ c ∧ c ≤ 'Z' then Char.ofNat (c.toNat + 32) else c

/-- ASCII lower-casing of a character list. -/
def lowerStr (l : List Char) : List Char := l.map lowerChar

/-- JavaScript `s.split(sep)` for a one-character separator: splits at every
occurrence, keeping empty fragments (`"" .split ";" = [""]`). -/
def splitOnChar (sep : Char) : List Char → List (List Char)
  | [] => [[]]
  | c :: cs =>
    let r := splitOnChar sep cs
    if c = sep then [] :: r else (c :: r.headD []) :: r.tail

/-- Left trim: drop leading JS whitespace. -/
def trimLeft (l : List Char) : List Char := l.dropWhile isJsWs

/-- Right trim: drop trailing JS whitespace. -/
def trimRight (l : List Char) : List Char := (l.reverse.dropWhile isJsWs).reverse

/-- JavaScript `String.prototype.trim`. -/
def trimJs (l : List Char) : List Char := trimRight (trimLeft l)

/-- JavaScript `Array.prototype.join` with a fixed separator. -/
def joinSep (sep : List Char) : List (List Char) → List Char
  | [] => []
  | [a] => a
  | a :: b :: t => a ++ sep ++ joinSep sep (b :: t)

/-! ## Cookie Rewriter (src/main.ts `sanitizeSetCookie`,
src/unnamed/part_000 `rewriteSetCookieForOurDomain`) -/

/-- One iteration of the `for (const p of parts)` loop in `sanitizeSetCookie`:
split the attribute on `=`, lower-case the key, and remember the latest
`Expires`/`Max-Age` values (rebuilt exactly as the template literals do). -/
def cookieScanStep (acc : Option (List Char) × Option (List Char)) (p : List Char) :
    Option (List Char) × Option (List Char) :=
  let ks := splitOnChar '=' p
  let key := lowerStr (trimJs (ks.headD []))
  if key = "expires".data then
    (some (trimJs ("Expires=".data ++ joinSep ['='] ks.tail)), acc.2)
  else if key = "max-age".data then
    (acc.1, some (trimJs ("Max-Age=".data ++ joinSep ['='] ks.tail)))
  else acc

/-- `sanitizeSetCookie` from src/main.ts: split the raw line on `;`, trim the
parts, keep only the name=value pair and any `Expires`/`Max-Age` attributes,
then append `Path=/`, `HttpOnly`, `SameSite=None`, `Secure` and re-join. -/
def sanitizeSetCookieCore (sc : List Char) : List Char :=
  let parts := (splitOnChar ';' sc).map trimJs
  let nameValue := parts.headD []
  let scan := parts.tail.foldl cookieScanStep (none, none)
  let out := nameValue :: (scan.1.toList ++ scan.2.toList ++
    ["Path=/".data, "HttpOnly".data, "SameSite=None".data, "Secure".data])
  joinSep [';', ' '] out

/-- String wrapper for `sanitizeSetCookie`. -/
def sanitizeSetCookie (sc : String) : String := ⟨sanitizeSetCookieCore sc.data⟩

/-- Case-insensitive literal match: consume `pat` (given lower-case) from the
front of the input, returning the remainder on success. -/
def matchCI : List Char → List Char → Option (List Char)
  | [], l => some l
  | _ :: _, [] => none
  | p :: ps, c :: cs => if lowerChar c = p then matchCI ps cs else none

/-- Attempt the body of the regex `;\s*Domain=[^;]+` right after a matched
`;`: skip whitespace, match `Domain=` case-insensitively, then require at
least one non-`;` character (consumed greedily).  Returns the rest of the
input after the full match. -/
def domainMatchTail (l : List Char) : Option (List Char) :=
  let l1 := l.dropWhile isJsWs
  match matchCI "domain=".data l1 with
  | none => none
  | some l2 =>
    if l2.takeWhile (fun c => c ≠ ';') = [] then none
    else some (l2.dropWhile (fun c => c ≠ ';'))

/-- `rewriteSetCookieForOurDomain` from src/unnamed/part_000:
`setCookieValue.replace(/;\s*Domain=[^;]+/i, "")` — delete the first match
of the regex (JS `replace` with a non-global regex replaces one match). -/
def rewriteSetCookieCore : List Char → List Char
  | [] => []
  | c :: cs =>
    if c = ';' then
      match domainMatchTail cs with
      | some rest => rest
      | none => c :: rewriteSetCookieCore cs
    else c :: rewriteSetCookieCore cs

/-- String wrapper for `rewriteSetCookieForOurDomain`. -/
def rewriteSetCookieForOurDomain (sc : String) : String := ⟨rewriteSetCookieCore sc.data⟩

/-- The (case-insensitive, trimmed) name of one `;`-separated cookie
attribute fragment. -/
def attrKey (p : List Char) : List Char :=
  lowerStr (trimJs ((splitOnChar '=' (trimJs p)).headD []))

/-- The value of one cookie attribute fragment (text after the first `=`). -/
def attrVal (p : List Char) : List Char :=
  trimJs (joinSep ['='] ((splitOnChar '=' (trimJs p)).tail))

/-- The raw Set-Cookie line has a `Domain` attribute (an attribute after the
name=value pair whose name is `domain`, case-insensitively). -/
def hasDomainAttrB (s : List Char) : Bool :=
  ((splitOnChar ';' s).tail).any (fun p => attrKey p == "domain".data)

/-- The raw Set-Cookie line has a `Path` attribute. -/
def hasPathAttrB (s : List Char) : Bool :=
  ((splitOnChar ';' s).tail).any (fun p => attrKey p == "path".data)

/-- The raw Set-Cookie line has a `Path` attribute whose value is `/`. -/
def hasPathSlashAttrB (s : List Char) : Bool :=
  ((splitOnChar ';' s).tail).any (fun p => attrKey p == "path".data && attrVal p == "/".data)

/-- Invariant maintained by the attribute scan: a remembered `Expires`
(resp. `Max-Age`) value is the literal attribute name, `=`, and a
semicolon-free, right-trimmed value. -/
def ScanInv (acc : Option (List Char) × Option (List Char)) : Prop :=
  (∀ v, acc.1 = some v → ∃ r, v = "Expires=".data ++ r ∧ ';' ∉ r ∧ trimRight r = r) ∧
  (∀ v, acc.2 = some v → ∃ r, v = "Max-Age=".data ++ r ∧ ';' ∉ r ∧ trimRight r = r)

/-! ## WHATWG URL model

The source relies on the platform `URL` constructor (`new URL(v)`,
`new URL(v, TARGET_HOST)`, `u.protocol = "http:"`, `u.origin`, `u.pathname`,
`u.search`, `u.hash`, `u.toString()`).  The model below covers the WHATWG
behaviour for the hierarchical `http`/`https` URLs the proxy manipulates:
scheme recognition, authority with optional port (default ports normalised
to none, invalid ports rejected), path/query/fragment splitting, relative
resolution against a base, opaque (non-special-scheme) URLs with origin
`null`, and parse failure for an empty host.  Percent-encoding and
dot-segment normalisation are not modelled; no claim depends on them. -/

def isAsciiAlpha (c : Char) : Bool := ('a' ≤ c && c ≤ 'z') || ('A' ≤ c && c ≤ 'Z')

def isAsciiDigit (c : Char) : Bool := '0' ≤ c && c ≤ '9'

def isSchemeTailChar (c : Char) : Bool :=
  isAsciiAlpha c || isAsciiDigit c || c = '+' || c = '-' || c = '.'

/-- Decimal digit to character. -/
def digitChar (d : Nat) : Char := Char.ofNat (48 + d)

/-- Decimal rendering of a natural number (fuelled, kernel-friendly). -/
def natDigitsAux (fuel n : Nat) : List Char :=
  match fuel with
  | 0 => []
  | f + 1 => if n < 10 then [digitChar n] else natDigitsAux f (n / 10) ++ [digitChar (n % 10)]

/-- Decimal rendering of a natural number, as JavaScript stringifies ports. -/
def natToChars (n : Nat) : List Char := natDigitsAux (n + 1) n

/-- Parsed URL record (the fields of a WHATWG `URL` the source reads). -/
structure URLRec where
  scheme : List Char
  host : List Char
  port : Option Nat
  pathname : List Char
  search : List Char
  hash : List Char
deriving DecidableEq

/-- Default port of a special scheme. -/
def defaultPort (scheme : List Char) : Option Nat :=
  if scheme = "http".data then some 80
  else if scheme = "https".data then some 443
  else none

/-- Split a leading `scheme:` prefix off the input, lower-casing the scheme. -/
def parseSchemeSplit (l : List Char) : Option (List Char × List Char) :=
  match l with
  | [] => none
  | c :: _ =>
    if isAsciiAlpha c then
      let sch := l.takeWhile isSchemeTailChar
      match l.drop sch.length with
      | ':' :: r => some (lowerStr sch, r)
      | _ => none
    else none

/-- Split a path-query-fragment tail into `pathname`/`search`/`hash` parts
(`search` keeps its `?`, `hash` keeps its `#`). -/
def parsePathParts (l : List Char) : List Char × List Char × List Char :=
  let path := l.takeWhile (fun c => c ≠ '?' && c ≠ '#')
  let rest := l.drop path.length
  match rest with
  | '?' :: _ =>
    let search := rest.takeWhile (fun c => c ≠ '#')
    (path, search, rest.drop search.length)
  | _ => (path, [], rest)

/-- Parse an absolute URL, as `new URL(v)` with no base. -/
def parseAbsCore (l : List Char) : Option URLRec :=
  match parseSchemeSplit l with
  | none => none
  | some (sch, rest) =>
    if sch = "http".data ∨ sch = "https".data then
      match rest with
      | '/' :: '/' :: r =>
        let auth := r.takeWhile (fun c => c ≠ '/' && c ≠ '?' && c ≠ '#')
        let tail := r.drop auth.length
        let host := auth.takeWhile (fun c => c ≠ ':')
        if host = [] then none
        else
          let portO : Option (Option Nat) :=
            match auth.drop host.length with
            | [] => some none
            | _ :: ds =>
              if ds = [] then some none
              else if ds.all isAsciiDigit then
                if digitsToNatAux ds < 65536 then
                  if defaultPort sch = some (digitsToNatAux ds) then some none
                  else some (some (digitsToNatAux ds))
                else none
              else none
          match portO with
          | none => none
          | some port =>
            let parts := parsePathParts tail
            some { scheme := sch, host := lowerStr host, port := port,
                   pathname := if parts.1 = [] then "/".data else parts.1,
                   search := parts.2.1, hash := parts.2.2 }
      | _ => none
    else
      let parts := parsePathParts rest
      some { scheme := sch, host := [], port := none,
             pathname := parts.1, search := parts.2.1, hash := parts.2.2 }
where
  digitsToNatAux (ds : List Char) : Nat := ds.foldl (fun n c => n * 10 + (c.toNat - 48)) 0

/-- Parse a URL against a base, as `new URL(v, base)`. -/
def parseURL (base : URLRec) (l : List Char) : Option URLRec :=
  match parseSchemeSplit l with
  | some _ => parseAbsCore l
  | none =>
    match l with
    | [] => some { base with hash := [] }
    | '/' :: '/' :: _ => parseAbsCore (base.scheme ++ ':' :: l)
    | '/' :: _ =>
      let parts := parsePathParts l
      some { base with pathname := parts.1, search := parts.2.1, hash := parts.2.2 }
    | '?' :: _ =>
      let search := l.takeWhile (fun c => c ≠ '#')
      some { base with search := search, hash := l.drop search.length }
    | '#' :: _ => some { base with hash := l }
    | _ =>
      let dir := (base.pathname.reverse.dropWhile (fun c => c ≠ '/')).reverse
      let parts := parsePathParts l
      some { base with pathname := dir ++ parts.1, search := parts.2.1, hash := parts.2.2 }

/-- `URL.prototype.origin`: scheme, host and non-default port for the special
schemes; the literal `null` for opaque URLs. -/
def urlOrigin (u : URLRec) : List Char :=
  if u.scheme = "http".data ∨ u.scheme = "https".data then
    u.scheme ++ "://".data ++ u.host ++
      (match u.port with
       | some n => ':' :: natToChars n
       | none => [])
  else "null".data

/-- `URL.prototype.toString` for hierarchical URLs. -/
def serializeURL (u : URLRec) : List Char :=
  u.scheme ++ "://".data ++ u.host ++
    (match u.port with
     | some n => ':' :: natToChars n
     | none => []) ++
    u.pathname ++ u.search ++ u.hash

/-- The fixed upstream origin of every variant in the repository. -/
def TARGET_HOST : String := "https://ecsc-expat.sy:8443"

/-- `new URL(TARGET_HOST)`. -/
def targetURL : URLRec :=
  { scheme := "https".data, host := "ecsc-expat.sy".data, port := some 8443,
    pathname := "/".data, search := [], hash := [] }

/-- `(new URL(TARGET_HOST)).origin`. -/
def upstreamOrigin : List Char := urlOrigin targetURL

/-! ## Redirect Rewriter (src/unnamed/part_000 `proxyToTarget`, the Location
branch at lines 86-99 and 646-659) -/

/-- The Location-header rewrite both proxy variants perform:
`new URL(v, TARGET_HOST)`; if the resolved origin equals the upstream origin
emit `pathname + search + hash`, otherwise keep the original value; on parse
failure keep the original value (the `catch` branch).  Total by
construction — the embedded function cannot throw. -/
def rewriteLocationCore (v : List Char) : List Char :=
  match parseURL targetURL v with
  | some locUrl =>
    if urlOrigin locUrl = upstreamOrigin then
      locUrl.pathname ++ locUrl.search ++ locUrl.hash
    else v
  | none => v

/-- String wrapper for the Location rewrite. -/
def rewriteLocation (v : String) : String := ⟨rewriteLocationCore v.data⟩

/-! ## Upstream Caller (src/main.ts and src/unnamed/part_000
`tryFetchWithFallback`) -/

/-- `u = new URL(targetUrlHttps); u.protocol = "http:"; u.toString()` —
the scheme-downgraded URL attempted by the fallback. -/
def toHttpUrl (url : List Char) : List Char :=
  match parseAbsCore url with
  | some u => serializeURL { u with scheme := "http".data }
  | none => url

/-- Terminal failure of the Upstream Caller: either the single primary error
(fallback disabled) or both underlying causes (`(e as any).cause =
\x7b httpsErr, httpErr \x7d` on the combined error). -/
inductive CallFailure (ε : Type) where
  | single (e : ε)
  | both (httpsErr httpErr : ε)
deriving DecidableEq

/-- `tryFetchWithFallback` from src/main.ts (lines 21-45) and
src/unnamed/part_000 (lines 581-605).  The network is abstracted as
`fetchAt`, mapping each attempted URL to the outcome of `timeoutFetch`
(`.error` covers a timeout abort, connection or TLS failure).  The result
pairs the returned `\x7b resp, url \x7d` (or terminal failure) with the
trace of URLs attempted, in order — one entry per `timeoutFetch` call. -/
def tryFetchWithFallback {α ε : Type} (tryHttpFallback : Bool)
    (fetchAt : List Char → Except ε α) (targetUrlHttps : List Char) :
    Except (CallFailure ε) (α × List Char) × List (List Char) :=
  match fetchAt targetUrlHttps with
  | .ok r => (.ok (r, targetUrlHttps), [targetUrlHttps])
  | .error e =>
    if tryHttpFallback then
      match fetchAt (toHttpUrl targetUrlHttps) with
      | .ok r2 => (.ok (r2, toHttpUrl targetUrlHttps), [targetUrlHttps, toHttpUrl targetUrlHttps])
      | .error e2 => (.error (.both e e2), [targetUrlHttps, toHttpUrl targetUrlHttps])
    else (.error (.single e), [targetUrlHttps])

/-! ## Header multimap model

Deno `Headers` lower-cases header names on entry.  The embedding normalises
names once when a `Headers` object is built from a raw list (`hNorm`) and
thereafter call sites pass names already lower-cased, exactly as the source
compares them (`k.toLowerCase() === "set-cookie"` etc.). -/

/-- Lower-case a header name, as the `Headers` constructor does. -/
def lowerName (s : String) : String := ⟨lowerStr s.data⟩

/-- `new Headers(init)`: normalise the names of a raw header list. -/
def hNorm (h : List (String × String)) : List (String × String) :=
  h.map (fun p => (lowerName p.1, p.2))

/-- `Headers.prototype.append` (name already lower-case). -/
def hAppend (h : List (String × String)) (k v : String) : List (String × String) :=
  h ++ [(k, v)]

/-- `Headers.prototype.delete` (name already lower-case): remove every entry
with the name. -/
def hDelete : List (String × String) → String → List (String × String)
  | [], _ => []
  | p :: t, k => if p.1 = k then hDelete t k else p :: hDelete t k

/-- `Headers.prototype.set` (name already lower-case): replace every entry
with the name by the single new one. -/
def hSet (h : List (String × String)) (k v : String) : List (String × String) :=
  hDelete h k ++ [(k, v)]

/-- `Headers.prototype.get` (name already lower-case): value of the first
entry with the name. -/
def hGet : List (String × String) → String → Option String
  | [], _ => none
  | p :: t, k => if p.1 = k then some p.2 else hGet t k

/-- All values carried for a name, in order (the per-name view of the
multimap; what the `set-cookie` collection loops read). -/
def hGetAll : List (String × String) → String → List String
  | [], _ => []
  | p :: t, k => if p.1 = k then p.2 :: hGetAll t k else hGetAll t k

/-! ## UTF-8 body model

`main.ts` reads every upstream body with `upstream.clone().text()` — the
WHATWG lossy UTF-8 decode — and re-serialises the string into the client
response, which encodes it back to UTF-8.  The non-HTML branch of
`proxyToTarget` instead moves the raw bytes (`arrayBuffer()`).  Both are
modelled below; bytes are `Nat` values < 256. -/

/-- UTF-8 encoding of one scalar value (how a JS string is put on the wire
by the `Response` constructor). -/
def utf8EncodeChar (n : Nat) : List Nat :=
  if n < 0x80 then [n]
  else if n < 0x800 then [0xC0 + n / 64, 0x80 + n % 64]
  else if n < 0x10000 then [0xE0 + n / 4096, 0x80 + (n / 64) % 64, 0x80 + n % 64]
  else [0xF0 + n / 262144, 0x80 + (n / 4096) % 64, 0x80 + (n / 64) % 64, 0x80 + n % 64]

/-- UTF-8 encoding of a character list. -/
def utf8Encode (s : List Char) : List Nat := (s.map (fun c => utf8EncodeChar c.toNat)).flatten

/-- Whether a byte is a UTF-8 continuation byte. -/
def isContByte (b : Nat) : Bool := 0x80 ≤ b && b ≤ 0xBF

/-- WHATWG lossy UTF-8 decoding (what `Response.prototype.text` does):
malformed sequences decode to U+FFFD, resuming at the offending byte.  The
fuel is an upper bound on steps; each step consumes at least one byte. -/
def utf8DecodeLossyAux : Nat → List Nat → List Char
  | 0, _ => []
  | _, [] => []
  | f + 1, b :: bs =>
    if b ≤ 0x7F then Char.ofNat b :: utf8DecodeLossyAux f bs
    else if 0xC2 ≤ b ∧ b ≤ 0xDF then
      match bs with
      | b2 :: bs2 =>
        if isContByte b2 then
          Char.ofNat ((b % 32) * 64 + b2 % 64) :: utf8DecodeLossyAux f bs2
        else Char.ofNat 0xFFFD :: utf8DecodeLossyAux f bs
      | [] => [Char.ofNat 0xFFFD]
    else if 0xE0 ≤ b ∧ b ≤ 0xEF then
      let lo := if b = 0xE0 then 0xA0 else 0x80
      let hi := if b = 0xED then 0x9F else 0xBF
      match bs with
      | b2 :: bs2 =>
        if lo ≤ b2 ∧ b2 ≤ hi then
          match bs2 with
          | b3 :: bs3 =>
            if isContByte b3 then
              Char.ofNat ((b % 16) * 4096 + (b2 % 64) * 64 + b3 % 64) ::
                utf8DecodeLossyAux f bs3
            else Char.ofNat 0xFFFD :: utf8DecodeLossyAux f bs2
          | [] => [Char.ofNat 0xFFFD]
        else Char.ofNat 0xFFFD :: utf8DecodeLossyAux f bs
      | [] => [Char.ofNat 0xFFFD]
    else if 0xF0 ≤ b ∧ b ≤ 0xF4 then
      let lo := if b = 0xF0 then 0x90 else 0x80
      let hi := if b = 0xF4 then 0x8F else 0xBF
      match bs with
      | b2 :: bs2 =>
        if lo ≤ b2 ∧ b2 ≤ hi then
          match bs2 with
          | b3 :: bs3 =>
            if isContByte b3 then
              match bs3 with
              | b4 :: bs4 =>
                if isContByte b4 then
                  Char.ofNat ((b % 8) * 262144 + (b2 % 64) * 4096 + (b3 % 64) * 64 + b4 % 64)
                    :: utf8DecodeLossyAux f bs4
                else Char.ofNat 0xFFFD :: utf8DecodeLossyAux f bs3
              | [] => [Char.ofNat 0xFFFD]
            else Char.ofNat 0xFFFD :: utf8DecodeLossyAux f bs2
          | [] => [Char.ofNat 0xFFFD]
        else Char.ofNat 0xFFFD :: utf8DecodeLossyAux f bs
      | [] => [Char.ofNat 0xFFFD]
    else Char.ofNat 0xFFFD :: utf8DecodeLossyAux f bs

/-- WHATWG lossy UTF-8 decoding of a byte list. -/
def utf8DecodeLossy (l : List Nat) : List Char := utf8DecodeLossyAux l.length l

/-! ## Response model and the src/main.ts handler (first variant) -/

/-- A response body: a JS string (encoded to UTF-8 on the wire), raw bytes
(`arrayBuffer` passthrough), or `null`. -/
inductive BodyVal where
  | text (s : String)
  | bytes (b : List Nat)
  | empty
deriving DecidableEq

/-- The bytes a body contributes on the wire. -/
def bodyWireBytes : BodyVal → List Nat
  | .text s => utf8Encode s.data
  | .bytes b => b
  | .empty => []

/-- An upstream `Response` as the handlers observe it. -/
structure UpstreamResp where
  status : Nat
  headers : List (String × String)
  bodyBytes : List Nat

/-- The `Response` handed back to the client. -/
structure ClientResp where
  status : Nat
  headers : List (String × String)
  body : BodyVal

/-- JavaScript `x || "*"` on a nullable header value (absent and empty both
fall back to `*`). -/
def jsOrStar : Option String → String
  | some s => if s = "" then "*" else s
  | none => "*"

/-- `makeCorsPreflightResponse` from src/main.ts (lines 72-81). -/
def makeCorsPreflightResponse (originHeader : Option String) : ClientResp :=
  { status := 204,
    headers := hSet (hSet (hSet (hSet (hSet []
      "access-control-allow-origin" (jsOrStar originHeader))
      "access-control-allow-methods" "GET,POST,PUT,DELETE,OPTIONS")
      "access-control-allow-headers" "*")
      "access-control-allow-credentials" "true")
      "access-control-max-age" "86400",
    body := .empty }

/-- The outbound header set the src/main.ts handler builds (lines 96-106):
copy the inbound headers, then force `Host`, `Origin`, `Referer`,
`Sec-Fetch-*` and `Alt-Used` values derived from the target. -/
def mainOutboundHeaders (reqHeaders : List (String × String)) (path : String) :
    List (String × String) :=
  let h0 := hNorm reqHeaders
  let h1 := hSet h0 "host" "ecsc-expat.sy"
  let h2 := hSet h1 "origin" "https://ecsc-expat.sy"
  let h3 := hSet h2 "referer" ("https://ecsc-expat.sy" ++ path)
  let h4 := hSet h3 "sec-fetch-site" "same-site"
  let h5 := hSet h4 "sec-fetch-mode" "cors"
  let h6 := hSet h5 "sec-fetch-dest" "empty"
  hSet h6 "alt-used" "ecsc-expat.sy"

/-- The response assembly of the src/main.ts handler after the upstream call
succeeded (lines 140-186): read the body as text, collect the upstream
`Set-Cookie` values, delete them, re-append sanitised ones only on the exact
login path, then stamp the CORS headers. -/
def mainResponse (path : String) (reqOrigin : Option String) (up : UpstreamResp) :
    ClientResp :=
  let respBody : String := ⟨utf8DecodeLossy up.bodyBytes⟩
  let originalSetCookies := hGetAll (hNorm up.headers) "set-cookie"
  let h0 := hNorm up.headers
  let h1 := if originalSetCookies ≠ [] then hDelete h0 "set-cookie" else h0
  let h2 := if path = "/secure/auth/login" ∧ originalSetCookies ≠ [] then
      originalSetCookies.foldl (fun h sc => hAppend h "set-cookie" (sanitizeSetCookie sc)) h1
    else h1
  let h3 := match reqOrigin with
    | some o =>
      if o = "" then
        hSet (hSet h2 "access-control-allow-origin" "*")
          "access-control-allow-credentials" "true"
      else
        hSet (hSet (hSet h2 "access-control-allow-origin" o)
          "access-control-allow-credentials" "true") "vary" "Origin"
    | none =>
      hSet (hSet h2 "access-control-allow-origin" "*")
        "access-control-allow-credentials" "true"
  let h4 := hSet (hSet (hSet h3
      "access-control-allow-methods" "GET,POST,PUT,DELETE,OPTIONS")
      "access-control-allow-headers" "*")
      "access-control-expose-headers" "*"
  { status := up.status, headers := h4, body := .text respBody }

/-- The src/main.ts request handler (lines 83-187), with the network
abstracted: `upstream` is the outcome of `tryFetchWithFallback`.  The OPTIONS
branch short-circuits to the preflight response; an upstream failure yields
the bare 502 `Bad gateway` response (whose only header is the `text/plain`
content type the platform adds for a string body — no CORS headers). -/
def mainHandler (method path : String) (reqHeaders : List (String × String))
    (upstream : Except String UpstreamResp) : ClientResp :=
  if method = "OPTIONS" then
    makeCorsPreflightResponse (some (jsOrStar (hGet (hNorm reqHeaders) "origin")))
  else
    match upstream with
    | .error err =>
      { status := 502,
        headers := [("content-type", "text/plain;charset=UTF-8")],
        body := .text ("Bad gateway: " ++ err) }
    | .ok up => mainResponse path (hGet (hNorm reqHeaders) "origin") up

/-- `corsPreflightResponse` from the second src/main.ts variant
(lines 215-224): a constant response that ignores the caller entirely. -/
def corsPreflightResponse : ClientResp :=
  { status := 204,
    headers := [("access-control-allow-origin", "*"),
                ("access-control-allow-methods", "GET,POST,OPTIONS"),
                ("access-control-allow-headers", "Content-Type, Source, Cookie")],
    body := .empty }

/-- The OPTIONS route of the second src/main.ts variant (lines 253-255):
every preflight gets `corsPreflightResponse()`, whatever the request
headers say. -/
def handlerV2Preflight (_reqHeaders : List (String × String)) : ClientResp :=
  corsPreflightResponse

/-- The per-header step of the forward-header loop of `proxyToTarget`
(src/unnamed/part_000 lines 55-60): skip `host`, `content-length`,
`accept-encoding` and `connection`, copy everything else. -/
def forwardStep (acc : List (String × String)) (kv : String × String) :
    List (String × String) :=
  if kv.1 = "host" ∨ kv.1 = "content-length" ∨ kv.1 = "accept-encoding" ∨ kv.1 = "connection"
  then acc
  else hSet acc kv.1 kv.2

/-- The outbound header set `proxyToTarget` builds (src/unnamed/part_000
lines 54-63): copy the inbound headers minus the hop-by-hop ones, then force
`Referer` and `Origin` to the target host. -/
def proxyForwardHeaders (reqHeaders : List (String × String)) : List (String × String) :=
  let forward := (hNorm reqHeaders).foldl forwardStep []
  hSet (hSet forward "referer" TARGET_HOST) "origin" TARGET_HOST

/-! ## JavaScript substring primitives for the Body Rewriter -/

/-- JavaScript `s.includes(pat)`. -/
def containsSub (pat : List Char) : List Char → Bool
  | [] => decide (pat = [])
  | c :: cs => pat.isPrefixOf (c :: cs) || containsSub pat cs

/-- Number of (possibly overlapping) occurrences of `pat` in the input; the
measure behind "contains the literal string N times". -/
def countSub (pat : List Char) : List Char → Nat
  | [] => if pat = [] then 1 else 0
  | c :: cs => (if pat.isPrefixOf (c :: cs) then 1 else 0) + countSub pat cs

/-- JavaScript `s.replace(pat, rep)` with a plain-string pattern: replace the
first occurrence only. -/
def replaceFirst (pat rep : List Char) : List Char → List Char
  | [] => if pat = [] then rep else []
  | c :: cs =>
    if pat.isPrefixOf (c :: cs) then rep ++ (c :: cs).drop pat.length
    else c :: replaceFirst pat rep cs

/-- Fuelled worker for the global literal-pattern deletion; every step
consumes at least one input character, so fuel `l.length` never runs out. -/
def removeAllOccAux (pat : List Char) : Nat → List Char → List Char
  | 0, l => l
  | _, [] => []
  | f + 1, c :: cs =>
    if pat ≠ [] ∧ pat.isPrefixOf (c :: cs) then
      removeAllOccAux pat f (cs.drop (pat.length - 1))
    else c :: removeAllOccAux pat f cs

/-- JavaScript `s.replace(re, "")` for a global regex matching the literal
`pat` (the source escapes the origin string into such a regex): delete every
occurrence in one left-to-right pass, resuming after each match without
re-scanning the produced text. -/
def removeAllOcc (pat l : List Char) : List Char := removeAllOccAux pat l.length l

/-! ## Body Rewriter (src/unnamed/part_000 `proxyToTarget`, HTML branch,
lines 106-146) -/

/-- The guard script the proxy injects (the `injection` template literal of
lines 123-137, with `JSON.stringify(new URL(TARGET_HOST).origin)` already
interpolated). -/
def guardInjection : String :=
  "\n<script>\n" ++
  "  // Ensure future absolute navigations to the target origin use relative paths (simple guard)\n" ++
  "  (function()\x7b\n" ++
  "    try \x7b\n" ++
  "      const target = \"https://ecsc-expat.sy:8443\";\n" ++
  "      // intercept location.assign / replace\n" ++
  "      const _assign = location.assign;\n" ++
  "      location.assign = function(u)\x7b if(typeof u===\x27string\x27 && u.indexOf(target)===0) u = u.replace(target,\x27\x27); _assign.call(location,u); \x7d;\n" ++
  "      const _replace = location.replace;\n" ++
  "      location.replace = function(u)\x7b if(typeof u===\x27string\x27 && u.indexOf(target)===0) u = u.replace(target,\x27\x27); _replace.call(location,u); \x7d;\n" ++
  "    \x7dcatch(e)\x7b\x7d\n" ++
  "  \x7d)();\n" ++
  "</script>\n"

/-- The three global string-deletion passes of the HTML branch (lines
110-120): the full `TARGET_HOST`, the protocol-relative `"//" + host`
(`host` includes the port), and `(new URL(TARGET_HOST)).origin` — the same
literal as `TARGET_HOST` for this target. -/
def stripTargetOrigins (text : List Char) : List Char :=
  let rewrite := removeAllOcc TARGET_HOST.data text
  let rewrite2 := removeAllOcc "//ecsc-expat.sy:8443".data rewrite
  removeAllOcc "https://ecsc-expat.sy:8443".data rewrite2

/-- The injection placement (lines 138-142): before the first `</head>`,
else before the first `</body>`, else prepended. -/
def injectGuard (html : List Char) : List Char :=
  if containsSub "</head>".data html then
    replaceFirst "</head>".data (guardInjection.data ++ "</head>".data) html
  else if containsSub "</body>".data html then
    replaceFirst "</body>".data (guardInjection.data ++ "</body>".data) html
  else guardInjection.data ++ html

/-- The whole HTML body rewrite of `proxyToTarget`. -/
def proxyRewriteHtml (text : List Char) : List Char :=
  injectGuard (stripTargetOrigins text)

/-- The response `proxyToTarget` (src/unnamed/part_000, first variant, lines
79-153) returns once the upstream answered: copy the upstream headers,
rewrite a same-origin `Location` to its relative form, stamp
`Access-Control-Allow-Origin: *`, then either rewrite a `text/html` body
(buffered as text) or stream the raw bytes with the upstream content type
kept. -/
def proxyToTargetResponse (up : UpstreamResp) : ClientResp :=
  let h0 := (hNorm up.headers).foldl (fun acc kv => hAppend acc kv.1 kv.2) []
  let h1 := match hGet (hNorm up.headers) "location" with
    | some loc =>
      match parseURL targetURL loc.data with
      | some locUrl =>
        if urlOrigin locUrl = upstreamOrigin then
          hSet h0 "location" ⟨locUrl.pathname ++ locUrl.search ++ locUrl.hash⟩
        else h0
      | none => h0
    | none => h0
  let h2 := hSet h1 "access-control-allow-origin" "*"
  let ct := (hGet (hNorm up.headers) "content-type").getD ""
  if containsSub "text/html".data ct.data then
    { status := up.status,
      headers := hSet h2 "content-type" "text/html; charset=utf-8",
      body := .text ⟨proxyRewriteHtml (utf8DecodeLossy up.bodyBytes)⟩ }
  else
    { status := up.status,
      headers := if ct ≠ "" then hSet h2 "content-type" ct else h2,
      body := .bytes up.bodyBytes }

/-! ## Sanity examples and theorems -/

example : sanitizeSetCookie "SESSION=abc; Domain=ecsc-expat.sy; Path=/app; HttpOnly" =
    "SESSION=abc; Path=/; HttpOnly; SameSite=None; Secure" := by decide

example : sanitizeSetCookie "S=1; Expires=Wed, 21 Oct 2026 07:28:00 GMT; Domain=x.sy" =
    "S=1; Expires=Wed, 21 Oct 2026 07:28:00 GMT; Path=/; HttpOnly; SameSite=None; Secure" := by
  decide

example : rewriteSetCookieForOurDomain "SESSION=abc; Domain=ecsc-expat.sy; Path=/x" =
    "SESSION=abc; Path=/x" := by decide

example : rewriteSetCookieForOurDomain "SESSION=abc; Domain=ecsc-expat.sy" =
    "SESSION=abc" := by decide

example : hasDomainAttrB "SESSION=abc; Domain=ecsc-expat.sy".data = true := by decide

example : hasPathSlashAttrB "SESSION=abc; Path=/".data = true := by decide

example : parseAbsCore TARGET_HOST.data = some targetURL := by decide

example : upstreamOrigin = "https://ecsc-expat.sy:8443".data := by decide

example : rewriteLocation "https://ecsc-expat.sy:8443/x/y?q=1" = "/x/y?q=1" := by decide

example : rewriteLocation "/secure/auth/login" = "/secure/auth/login" := by decide

example : rewriteLocation "https://evil.example/x" = "https://evil.example/x" := by decide

example : toHttpUrl "https://ecsc-expat.sy:8443/login".data
    = "http://ecsc-expat.sy:8443/login".data := by decide

example : utf8DecodeLossy [0x61, 0xD8, 0xA7] = ['a', 'ا'] := by decide

example : utf8Encode (utf8DecodeLossy [0xFF]) = [0xEF, 0xBF, 0xBD] := by decide

example : removeAllOcc "ab".data "xabyab".data = "xy".data := by decide

example : removeAllOcc "https://ecsc-expat.sy:8443".data
    "See https://ecsc-expat.sy:8443/app now".data = "See /app now".data := by decide

theorem splitOnChar_ne_nil (sep : Char) (l : List Char) : splitOnChar sep l ≠ [] := by
  cases l with
  | nil => simp [splitOnChar]
  | cons c cs =>
    simp only [splitOnChar]
    split <;> simp

theorem sep_not_mem_of_mem_splitOnChar {sep : Char} {l : List Char} :
    ∀ s ∈ splitOnChar sep l, sep ∉ s := by
  induction l with
  | nil => intro s hs; simp [splitOnChar] at hs; simp [hs]
  | cons c cs ih =>
    intro s hs
    simp only [splitOnChar] at hs
    by_cases hc : c = sep
    · rw [if_pos hc] at hs
      rcases List.mem_cons.mp hs with h | h
      · simp [h]
      · exact ih s h
    · rw [if_neg hc] at hs
      obtain ⟨t, ts, ht⟩ : ∃ t ts, splitOnChar sep cs = t :: ts := by
        cases h : splitOnChar sep cs with
        | nil => exact absurd h (splitOnChar_ne_nil sep cs)
        | cons t ts => exact ⟨t, ts, rfl⟩
      rw [ht] at hs
      simp only [List.headD_cons, List.tail_cons] at hs
      rcases List.mem_cons.mp hs with h | h
      · subst h
        intro hmem
        rcases List.mem_cons.mp hmem with h | h
        · exact hc h.symm
        · exact ih t (by simp [ht]) h
      · exact ih s (by simp [ht, h])

theorem mem_of_mem_splitOnChar {sep : Char} {l : List Char} :
    ∀ s ∈ splitOnChar sep l, ∀ x ∈ s, x ∈ l := by
  induction l with
  | nil => intro s hs; simp [splitOnChar] at hs; simp [hs]
  | cons c cs ih =>
    intro s hs x hx
    simp only [splitOnChar] at hs
    by_cases hc : c = sep
    · rw [if_pos hc] at hs
      rcases List.mem_cons.mp hs with h | h
      · simp [h] at hx
      · exact List.mem_cons_of_mem _ (ih s h x hx)
    · rw [if_neg hc] at hs
      obtain ⟨t, ts, ht⟩ : ∃ t ts, splitOnChar sep cs = t :: ts := by
        cases h : splitOnChar sep cs with
        | nil => exact absurd h (splitOnChar_ne_nil sep cs)
        | cons t ts => exact ⟨t, ts, rfl⟩
      rw [ht] at hs
      simp only [List.headD_cons, List.tail_cons] at hs
      rcases List.mem_cons.mp hs with h | h
      · subst h
        rcases List.mem_cons.mp hx with h | h
        · simp [h]
        · exact List.mem_cons_of_mem _ (ih t (by simp [ht]) x h)
      · exact List.mem_cons_of_mem _ (ih s (by simp [ht, h]) x hx)

theorem splitOnChar_of_not_mem {sep : Char} {a : List Char} (h : sep ∉ a) :
    splitOnChar sep a = [a] := by
  induction a with
  | nil => rfl
  | cons c cs ih =>
    have hc : c ≠ sep := fun hcs => h (by simp [hcs])
    have hcs : sep ∉ cs := fun hm => h (List.mem_cons_of_mem _ hm)
    simp [splitOnChar, if_neg hc, ih hcs]

theorem splitOnChar_append {sep : Char} {a : List Char} (h : sep ∉ a) (b : List Char) :
    splitOnChar sep (a ++ sep :: b) = a :: splitOnChar sep b := by
  induction a with
  | nil => simp [splitOnChar]
  | cons c cs ih =>
    have hc : c ≠ sep := fun hcs => h (by simp [hcs])
    have hcs : sep ∉ cs := fun hm => h (List.mem_cons_of_mem _ hm)
    show splitOnChar sep (c :: (cs ++ sep :: b)) = (c :: cs) :: splitOnChar sep b
    simp only [splitOnChar]
    rw [if_neg hc, ih hcs]
    simp

theorem dropWhile_dropWhile (p : α → Bool) (l : List α) :
    (l.dropWhile p).dropWhile p = l.dropWhile p := by
  induction l with
  | nil => rfl
  | cons c cs ih =>
    by_cases h : p c
    · simp [List.dropWhile_cons, h, ih]
    · simp [List.dropWhile_cons, h]

theorem dropWhile_append' [DecidableEq α] (p : α → Bool) (l₁ l₂ : List α) :
    (l₁ ++ l₂).dropWhile p =
      if l₁.dropWhile p = [] then l₂.dropWhile p else l₁.dropWhile p ++ l₂ := by
  induction l₁ with
  | nil => simp
  | cons c cs ih =>
    by_cases h : p c
    · simp [List.dropWhile_cons, h, ih]
    · simp [List.dropWhile_cons, h]

theorem trimLeft_cons_ws {c : Char} (h : isJsWs c) (l : List Char) :
    trimLeft (c :: l) = trimLeft l := by
  simp [trimLeft, List.dropWhile_cons, h]

theorem trimLeft_cons_not_ws {c : Char} (h : ¬ isJsWs c) (l : List Char) :
    trimLeft (c :: l) = c :: l := by
  simp [trimLeft, List.dropWhile_cons, h]

theorem trimJs_cons_ws {c : Char} (h : isJsWs c) (l : List Char) :
    trimJs (c :: l) = trimJs l := by
  simp [trimJs, trimLeft_cons_ws h]

theorem trimRight_append (a b : List Char) :
    trimRight (a ++ b) = if trimRight b = [] then trimRight a else a ++ trimRight b := by
  simp only [trimRight, List.reverse_append]
  rw [dropWhile_append']
  by_cases h : b.reverse.dropWhile isJsWs = []
  · rw [if_pos h, if_pos (by simp [h])]
  · rw [if_neg h, if_neg (by simpa using h)]
    simp

theorem trimRight_trimRight (l : List Char) : trimRight (trimRight l) = trimRight l := by
  simp [trimRight, dropWhile_dropWhile]

theorem mem_of_mem_trimRight {l : List Char} {x : Char} (h : x ∈ trimRight l) : x ∈ l := by
  simp only [trimRight, List.mem_reverse] at h
  have := List.dropWhile_sublist (l := l.reverse) (p := isJsWs)
  exact List.mem_reverse.mp (this.mem h)

theorem mem_of_mem_trimLeft {l : List Char} {x : Char} (h : x ∈ trimLeft l) : x ∈ l :=
  (List.dropWhile_sublist (l := l) (p := isJsWs)).mem h

theorem mem_of_mem_trimJs {l : List Char} {x : Char} (h : x ∈ trimJs l) : x ∈ l :=
  mem_of_mem_trimLeft (mem_of_mem_trimRight h)

/-- Splitting the result of joining `";"`-free fragments with `"; "` recovers
the fragments, each non-head fragment gaining the `' '` of the separator. -/
theorem splitOnChar_joinSep {a : List Char} {rest : List (List Char)}
    (ha : ';' ∉ a) (hrest : ∀ s ∈ rest, ';' ∉ s) :
    splitOnChar ';' (joinSep [';', ' '] (a :: rest)) =
      a :: rest.map (fun s => ' ' :: s) := by
  induction rest generalizing a with
  | nil => simp [joinSep, splitOnChar_of_not_mem ha]
  | cons b t ih =>
    have hb : ';' ∉ b := hrest b (by simp)
    have ht : ∀ s ∈ t, ';' ∉ s := fun s hs => hrest s (by simp [hs])
    have hstep : joinSep [';', ' '] (a :: b :: t) = a ++ ';' :: ' ' :: joinSep [';', ' '] (b :: t) := by
      simp [joinSep]
    rw [hstep, splitOnChar_append ha]
    have hinner := ih hb ht
    have : splitOnChar ';' (' ' :: joinSep [';', ' '] (b :: t)) =
        (' ' :: b) :: t.map (fun s => ' ' :: s) := by
      simp only [splitOnChar]
      rw [if_neg (by decide)]
      rw [hinner]
      simp
    rw [this]
    simp

theorem mem_of_mem_joinSep {sep : List Char} {L : List (List Char)} {x : Char}
    (h : x ∈ joinSep sep L) : x ∈ sep ∨ ∃ s ∈ L, x ∈ s := by
  induction L with
  | nil => simp [joinSep] at h
  | cons a T ih =>
    cases T with
    | nil =>
      right
      exact ⟨a, by simp, h⟩
    | cons b t =>
      simp only [joinSep, List.append_assoc, List.mem_append] at h
      rcases h with h | h | h
      · exact Or.inr ⟨a, by simp, h⟩
      · exact Or.inl h
      · rcases ih h with h | ⟨s, hs, hxs⟩
        · exact Or.inl h
        · exact Or.inr ⟨s, by simp [List.mem_cons.mp hs], hxs⟩

theorem trimJs_attr_append (pre : List Char) {c : Char} {tl : List Char}
    (hpre : pre = c :: tl) (hc : ¬ isJsWs c) (hright : trimRight pre = pre) (r : List Char) :
    trimJs (pre ++ r) = pre ++ trimRight r := by
  subst hpre
  have h1 : trimLeft ((c :: tl) ++ r) = (c :: tl) ++ r := by
    rw [List.cons_append, trimLeft_cons_not_ws hc]
  unfold trimJs
  rw [h1, trimRight_append]
  by_cases h : trimRight r = []
  · simp [h, hright]
  · simp [h]

theorem scanInv_step {acc} {p : List Char} (hp : ';' ∉ p) (h : ScanInv acc) :
    ScanInv (cookieScanStep acc p) := by
  have hjoin : ';' ∉ joinSep ['='] ((splitOnChar '=' p).tail) := by
    intro hm
    rcases mem_of_mem_joinSep hm with hm | ⟨s, hs, hxs⟩
    · simp at hm
    · exact hp (mem_of_mem_splitOnChar s (List.mem_of_mem_tail hs) ';' hxs)
  unfold cookieScanStep
  by_cases h1 : lowerStr (trimJs ((splitOnChar '=' p).headD [])) = "expires".data
  · rw [if_pos h1]
    refine ⟨?_, h.2⟩
    intro v hv
    simp only [Option.some.injEq] at hv
    subst hv
    rw [trimJs_attr_append "Expires=".data rfl (by decide) (by decide)]
    exact ⟨trimRight (joinSep ['='] ((splitOnChar '=' p).tail)), rfl,
      fun hm => hjoin (mem_of_mem_trimRight hm), trimRight_trimRight _⟩
  · rw [if_neg h1]
    by_cases h2 : lowerStr (trimJs ((splitOnChar '=' p).headD [])) = "max-age".data
    · rw [if_pos h2]
      refine ⟨h.1, ?_⟩
      intro v hv
      simp only [Option.some.injEq] at hv
      subst hv
      rw [trimJs_attr_append "Max-Age=".data rfl (by decide) (by decide)]
      exact ⟨trimRight (joinSep ['='] ((splitOnChar '=' p).tail)), rfl,
        fun hm => hjoin (mem_of_mem_trimRight hm), trimRight_trimRight _⟩
    · rw [if_neg h2]
      exact h

theorem scanInv_foldl (L : List (List Char)) (hL : ∀ p ∈ L, ';' ∉ p) :
    ∀ {acc}, ScanInv acc → ScanInv (L.foldl cookieScanStep acc) := by
  induction L with
  | nil => intro acc h; exact h
  | cons p T ih =>
    intro acc h
    exact ih (fun q hq => hL q (List.mem_cons_of_mem _ hq))
      (scanInv_step (hL p (by simp)) h)

theorem attrKey_space_expires {r : List Char} (hr : trimRight r = r) :
    attrKey (' ' :: ("Expires=".data ++ r)) = "expires".data := by
  unfold attrKey
  rw [trimJs_cons_ws (by decide),
      trimJs_attr_append "Expires=".data rfl (by decide) (by decide), hr]
  have h : ("Expires=".data : List Char) ++ r = "Expires".data ++ '=' :: r := rfl
  rw [h, splitOnChar_append (by decide)]
  simp only [List.headD_cons]
  decide

theorem attrKey_space_maxage {r : List Char} (hr : trimRight r = r) :
    attrKey (' ' :: ("Max-Age=".data ++ r)) = "max-age".data := by
  unfold attrKey
  rw [trimJs_cons_ws (by decide),
      trimJs_attr_append "Max-Age=".data rfl (by decide) (by decide), hr]
  have h : ("Max-Age=".data : List Char) ++ r = "Max-Age".data ++ '=' :: r := rfl
  rw [h, splitOnChar_append (by decide)]
  simp only [List.headD_cons]
  decide

theorem sanitizeSetCookieCore_eq {sc s0 : List Char} {srest : List (List Char)}
    (hsegs : splitOnChar ';' sc = s0 :: srest) :
    sanitizeSetCookieCore sc =
      joinSep [';', ' '] (trimJs s0 ::
        (((srest.map trimJs).foldl cookieScanStep (none, none)).1.toList ++
         ((srest.map trimJs).foldl cookieScanStep (none, none)).2.toList ++
         ["Path=/".data, "HttpOnly".data, "SameSite=None".data, "Secure".data])) := by
  unfold sanitizeSetCookieCore
  rw [hsegs]
  simp

theorem sanitize_core_ok (sc : List Char) :
    hasDomainAttrB (sanitizeSetCookieCore sc) = false ∧
    hasPathSlashAttrB (sanitizeSetCookieCore sc) = true := by
  obtain ⟨s0, srest, hsegs⟩ : ∃ s0 srest, splitOnChar ';' sc = s0 :: srest := by
    cases h : splitOnChar ';' sc with
    | nil => exact absurd h (splitOnChar_ne_nil ';' sc)
    | cons s0 srest => exact ⟨s0, srest, rfl⟩
  have hnv : ';' ∉ trimJs s0 := fun hm =>
    sep_not_mem_of_mem_splitOnChar s0 (hsegs ▸ List.mem_cons_self _ _) (mem_of_mem_trimJs hm)
  have hinv : ScanInv ((srest.map trimJs).foldl cookieScanStep (none, none)) := by
    refine scanInv_foldl _ ?_ ⟨(fun v hv => nomatch hv), (fun v hv => nomatch hv)⟩
    intro p hp
    obtain ⟨s, hs, rfl⟩ := List.mem_map.mp hp
    exact fun hm => sep_not_mem_of_mem_splitOnChar s (hsegs ▸ List.mem_cons_of_mem _ hs)
      (mem_of_mem_trimJs hm)
  have hopt1 := hinv.1
  have hopt2 := hinv.2
  have hfree : ∀ s ∈ ((((srest.map trimJs).foldl cookieScanStep (none, none)).1.toList ++
      ((srest.map trimJs).foldl cookieScanStep (none, none)).2.toList) ++
      ["Path=/".data, "HttpOnly".data, "SameSite=None".data, "Secure".data]), ';' ∉ s := by
    intro s hs
    rcases List.mem_append.mp hs with hs | hs
    · rcases List.mem_append.mp hs with hs | hs
      · obtain ⟨r, rfl, hr1, _⟩ := hopt1 s (by simpa using hs)
        intro hm
        rcases List.mem_append.mp hm with hm | hm
        · exact absurd hm (by decide)
        · exact hr1 hm
      · obtain ⟨r, rfl, hr1, _⟩ := hopt2 s (by simpa using hs)
        intro hm
        rcases List.mem_append.mp hm with hm | hm
        · exact absurd hm (by decide)
        · exact hr1 hm
    · simp only [List.mem_cons, List.not_mem_nil, or_false] at hs
      rcases hs with rfl | rfl | rfl | rfl <;> decide
  have hsplit := splitOnChar_joinSep hnv hfree
  constructor
  · unfold hasDomainAttrB
    rw [sanitizeSetCookieCore_eq hsegs, hsplit]
    simp only [List.tail_cons, List.any_map]
    rw [List.any_eq_false]
    intro x hx
    rcases List.mem_append.mp hx with hx | hx
    · rcases List.mem_append.mp hx with hx | hx
      · obtain ⟨r, rfl, _, hr2⟩ := hopt1 x (by simpa using hx)
        simp only [Function.comp]
        rw [attrKey_space_expires hr2]
        decide
      · obtain ⟨r, rfl, _, hr2⟩ := hopt2 x (by simpa using hx)
        simp only [Function.comp]
        rw [attrKey_space_maxage hr2]
        decide
    · simp only [List.mem_cons, List.not_mem_nil, or_false] at hx
      rcases hx with rfl | rfl | rfl | rfl <;> decide
  · unfold hasPathSlashAttrB
    rw [sanitizeSetCookieCore_eq hsegs, hsplit]
    simp only [List.tail_cons, List.any_map]
    rw [List.any_eq_true]
    exact ⟨"Path=/".data,
      List.mem_append_right _ (by simp), by decide⟩

/-- C1: the claim as frozen fails: `rewriteSetCookieForOurDomain` (one of the
two cited cookie-rewriting functions) strips the Domain attribute from
`SESSION=abc; Domain=ecsc-expat.sy` — an input with a Domain attribute and no
Path attribute — but returns `SESSION=abc`, which contains no `Path=/`
attribute, contradicting the claim's second conjunct. -/
theorem claim_C1_counterexample :
    hasDomainAttrB "SESSION=abc; Domain=ecsc-expat.sy".data = true ∧
    hasPathAttrB "SESSION=abc; Domain=ecsc-expat.sy".data = false ∧
    rewriteSetCookieForOurDomain "SESSION=abc; Domain=ecsc-expat.sy" = "SESSION=abc" ∧
    hasPathSlashAttrB (rewriteSetCookieForOurDomain "SESSION=abc; Domain=ecsc-expat.sy").data
      = false := by
  exact ⟨by decide, by decide, by decide, by decide⟩

/-- C1 (amended): for every raw Set-Cookie line, `sanitizeSetCookie`
(src/main.ts) returns a line with no Domain attribute and with a `Path`
attribute equal to `/`; `rewriteSetCookieForOurDomain`
(src/unnamed/part_000) only deletes the first `Domain` attribute and adds no
`Path` attribute, as the concrete conjuncts show. -/
theorem claim_C1_cookie_rewriter :
    (∀ sc : String, hasDomainAttrB (sanitizeSetCookie sc).data = false ∧
        hasPathSlashAttrB (sanitizeSetCookie sc).data = true) ∧
    hasDomainAttrB (rewriteSetCookieForOurDomain "S=1; Domain=ecsc-expat.sy; Secure").data
      = false ∧
    hasPathAttrB (rewriteSetCookieForOurDomain "S=1; Domain=ecsc-expat.sy; Secure").data
      = false := by
  refine ⟨fun sc => ?_, by decide, by decide⟩
  exact sanitize_core_ok sc.data

/-- C2: for every Location value, if it resolves against the upstream origin
to a URL with the upstream origin, the rewritten value is exactly
path + query + fragment; if the resolved origin differs or parsing fails,
the value passes through unchanged.  `rewriteLocation` is a total function,
so the rewriter never throws. -/
theorem claim_C2_redirect_rewriter (v : String) :
    (∀ u : URLRec, parseURL targetURL v.data = some u →
      (urlOrigin u = upstreamOrigin →
        rewriteLocation v = ⟨u.pathname ++ u.search ++ u.hash⟩) ∧
      (urlOrigin u ≠ upstreamOrigin → rewriteLocation v = v)) ∧
    (parseURL targetURL v.data = none → rewriteLocation v = v) := by
  refine ⟨fun u hu => ⟨fun ho => ?_, fun ho => ?_⟩, fun h => ?_⟩
  · show String.mk (rewriteLocationCore v.data) = _
    unfold rewriteLocationCore
    rw [hu]
    simp only [if_pos ho]
  · show String.mk (rewriteLocationCore v.data) = v
    unfold rewriteLocationCore
    rw [hu]
    simp only [if_neg ho]
  · show String.mk (rewriteLocationCore v.data) = v
    unfold rewriteLocationCore
    rw [h]

/-- C2 witness: the theorem applied at a same-origin absolute Location, a
cross-origin Location, and an unparseable Location. -/
theorem claim_C2_witness :
    rewriteLocation "https://ecsc-expat.sy:8443/x/y?q=1" = "/x/y?q=1" ∧
    rewriteLocation "https://evil.example/x" = "https://evil.example/x" ∧
    rewriteLocation "https://" = "https://" := by
  refine ⟨?_, ?_, ?_⟩
  · exact (((claim_C2_redirect_rewriter "https://ecsc-expat.sy:8443/x/y?q=1").1
      { scheme := "https".data, host := "ecsc-expat.sy".data, port := some 8443,
        pathname := "/x/y".data, search := "?q=1".data, hash := [] }
      (by decide)).1 (by decide)).trans (by decide)
  · exact ((claim_C2_redirect_rewriter "https://evil.example/x").1
      { scheme := "https".data, host := "evil.example".data, port := none,
        pathname := "/x".data, search := [], hash := [] }
      (by decide)).2 (by decide)
  · exact (claim_C2_redirect_rewriter "https://").2 (by decide)

/-- C8: whenever the primary call completes — with any HTTP status, the
response type `α` being arbitrary (HTTP-level error statuses are not
inspected) — the Upstream Caller returns that response and the attempt trace
is exactly the primary URL: no fallback is attempted. -/
theorem claim_C8_completed_response_no_fallback {α ε : Type} (fb : Bool)
    (fetchAt : List Char → Except ε α) (url : List Char) (r : α)
    (h : fetchAt url = .ok r) :
    tryFetchWithFallback fb fetchAt url = (.ok (r, url), [url]) := by
  unfold tryFetchWithFallback
  rw [h]

/-- C8 witness: a completed upstream call with HTTP status 503 is returned
as-is after a single attempt, with fallback enabled. -/
theorem claim_C8_witness :
    tryFetchWithFallback true (fun _ => (.ok 503 : Except (List Char) Nat))
      "https://ecsc-expat.sy:8443/rs/add".data
    = (.ok (503, "https://ecsc-expat.sy:8443/rs/add".data),
       ["https://ecsc-expat.sy:8443/rs/add".data]) :=
  claim_C8_completed_response_no_fallback true _ _ 503 rfl

/-- C3: when the primary HTTPS attempt fails, with fallback enabled the
caller makes exactly one additional attempt at the same URL with the scheme
rewritten to `http` (same host, port, path, query — the serialisation of the
parsed URL with scheme `http`); if that attempt also fails the result is a
terminal failure carrying both causes; if it succeeds its response is
returned; with fallback disabled the failure is reported after exactly the
one primary attempt. -/
theorem claim_C3_fallback_behaviour {α ε : Type}
    (fetchAt : List Char → Except ε α) (url : List Char) (u : URLRec) (e1 : ε)
    (hu : parseAbsCore url = some u)
    (h1 : fetchAt url = .error e1) :
    (tryFetchWithFallback true fetchAt url).2
      = [url, serializeURL { u with scheme := "http".data }] ∧
    (∀ e2, fetchAt (toHttpUrl url) = .error e2 →
      (tryFetchWithFallback true fetchAt url).1 = .error (.both e1 e2)) ∧
    (∀ r2, fetchAt (toHttpUrl url) = .ok r2 →
      (tryFetchWithFallback true fetchAt url).1 = .ok (r2, toHttpUrl url)) ∧
    tryFetchWithFallback false fetchAt url = (.error (.single e1), [url]) := by
  have hto : toHttpUrl url = serializeURL { u with scheme := "http".data } := by
    unfold toHttpUrl
    rw [hu]
  refine ⟨?_, fun e2 h2 => ?_, fun r2 h2 => ?_, ?_⟩
  · rw [← hto]
    cases h2 : fetchAt (toHttpUrl url) <;> simp [tryFetchWithFallback, h1, h2]
  · simp [tryFetchWithFallback, h1, h2]
  · simp [tryFetchWithFallback, h1, h2]
  · simp [tryFetchWithFallback, h1]

/-- C3 witness: the theorem applied with a network oracle on which both
attempts fail; fallback enabled yields the two-attempt trace and the
two-cause failure, fallback disabled yields a single attempt. -/
theorem claim_C3_witness :
    (tryFetchWithFallback true
        (fun _ => (.error "https timeout".data : Except (List Char) Nat))
        "https://ecsc-expat.sy:8443/login".data).2
      = ["https://ecsc-expat.sy:8443/login".data, "http://ecsc-expat.sy:8443/login".data] ∧
    (tryFetchWithFallback true
        (fun _ => (.error "https timeout".data : Except (List Char) Nat))
        "https://ecsc-expat.sy:8443/login".data).1
      = .error (.both "https timeout".data "https timeout".data) ∧
    tryFetchWithFallback false
        (fun _ => (.error "https timeout".data : Except (List Char) Nat))
        "https://ecsc-expat.sy:8443/login".data
      = (.error (.single "https timeout".data), ["https://ecsc-expat.sy:8443/login".data]) := by
  have h := claim_C3_fallback_behaviour
    (fun _ => (.error "https timeout".data : Except (List Char) Nat))
    "https://ecsc-expat.sy:8443/login".data
    { scheme := "https".data, host := "ecsc-expat.sy".data, port := some 8443,
      pathname := "/login".data, search := [], hash := [] }
    "https timeout".data (by decide) rfl
  exact ⟨h.1.trans (by decide), h.2.1 _ rfl, h.2.2.2⟩

theorem hGet_append (h₁ h₂ : List (String × String)) (k : String) :
    hGet (h₁ ++ h₂) k = match hGet h₁ k with
      | some v => some v
      | none => hGet h₂ k := by
  induction h₁ with
  | nil => simp [hGet]
  | cons p t ih =>
    by_cases hp : p.1 = k
    · simp [hGet, hp]
    · simp [hGet, hp, ih]

theorem hGet_hDelete_ne {h : List (String × String)} {k k' : String} (hne : k' ≠ k) :
    hGet (hDelete h k') k = hGet h k := by
  induction h with
  | nil => rfl
  | cons p t ih =>
    by_cases hp : p.1 = k'
    · have hpk : ¬ p.1 = k := fun hk => hne ((hp ▸ hk : k' = k))
      simp [hGet, hDelete, hp, hpk, ih, hne]
    · by_cases hpk : p.1 = k
      · simp [hGet, hDelete, hp, hpk, Ne.symm hne]
      · simp [hGet, hDelete, hp, hpk, ih]

theorem hGet_hDelete_self (h : List (String × String)) (k : String) :
    hGet (hDelete h k) k = none := by
  induction h with
  | nil => rfl
  | cons p t ih =>
    by_cases hp : p.1 = k
    · simp [hDelete, hp, ih]
    · simp [hGet, hDelete, hp, ih]

theorem hGet_hSet_self (h : List (String × String)) (k v : String) :
    hGet (hSet h k v) k = some v := by
  unfold hSet
  rw [hGet_append, hGet_hDelete_self]
  simp [hGet]

theorem hGet_hSet_ne {h : List (String × String)} {k k' : String} (hne : k' ≠ k)
    (v : String) : hGet (hSet h k' v) k = hGet h k := by
  unfold hSet
  rw [hGet_append, hGet_hDelete_ne hne]
  cases hfind : hGet h k with
  | some w => rfl
  | none => simp [hGet, hne]

theorem hGetAll_append (h₁ h₂ : List (String × String)) (k : String) :
    hGetAll (h₁ ++ h₂) k = hGetAll h₁ k ++ hGetAll h₂ k := by
  induction h₁ with
  | nil => simp [hGetAll]
  | cons p t ih =>
    by_cases hp : p.1 = k
    · simp [hGetAll, hp, ih]
    · simp [hGetAll, hp, ih]

theorem hGetAll_hDelete_self (h : List (String × String)) (k : String) :
    hGetAll (hDelete h k) k = [] := by
  induction h with
  | nil => rfl
  | cons p t ih =>
    by_cases hp : p.1 = k
    · simp [hDelete, hp, ih]
    · simp [hGetAll, hDelete, hp, ih]

theorem hGetAll_hDelete_ne {h : List (String × String)} {k k' : String} (hne : k' ≠ k) :
    hGetAll (hDelete h k') k = hGetAll h k := by
  induction h with
  | nil => rfl
  | cons p t ih =>
    by_cases hp : p.1 = k'
    · have hpk : ¬ p.1 = k := fun hk => hne ((hp ▸ hk : k' = k))
      simp [hGetAll, hDelete, hp, hpk, ih, hne]
    · by_cases hpk : p.1 = k
      · simp [hGetAll, hDelete, hp, hpk, ih, Ne.symm hne]
      · simp [hGetAll, hDelete, hp, hpk, ih]

theorem hGetAll_hSet_ne {h : List (String × String)} {k k' : String} (hne : k' ≠ k)
    (v : String) : hGetAll (hSet h k' v) k = hGetAll h k := by
  unfold hSet
  rw [hGetAll_append, hGetAll_hDelete_ne hne]
  simp [hGetAll, hne]

theorem hGetAll_hAppend_self (h : List (String × String)) (k v : String) :
    hGetAll (hAppend h k v) k = hGetAll h k ++ [v] := by
  unfold hAppend
  rw [hGetAll_append]
  simp [hGetAll]

theorem forwardStep_keeps_none {key : String}
    (hkey : key = "host" ∨ key = "content-length" ∨ key = "accept-encoding" ∨
      key = "connection")
    (L : List (String × String)) :
    ∀ acc, hGet acc key = none → hGet (L.foldl forwardStep acc) key = none := by
  induction L with
  | nil => intro acc h; exact h
  | cons kv t ih =>
    intro acc h
    simp only [List.foldl_cons]
    apply ih
    unfold forwardStep
    by_cases hskip : kv.1 = "host" ∨ kv.1 = "content-length" ∨ kv.1 = "accept-encoding" ∨
        kv.1 = "connection"
    · rw [if_pos hskip]
      exact h
    · rw [if_neg hskip]
      push_neg at hskip
      have hne : kv.1 ≠ key := by
        rcases hkey with rfl | rfl | rfl | rfl
        · exact hskip.1
        · exact hskip.2.1
        · exact hskip.2.2.1
        · exact hskip.2.2.2
      rw [hGet_hSet_ne hne]
      exact h

/-- C9: the claim as frozen fails on src/main.ts (one of the two cited
header builders): the handler copies the inbound headers wholesale, so an
inbound `Accept-Encoding` (and `Connection`, `Content-Length`) survives into
the outbound set, and `Host` is present as well (overwritten, not removed). -/
theorem claim_C9_counterexample :
    hGet (mainOutboundHeaders [("Accept-Encoding", "gzip")] "/rs/add") "accept-encoding"
      = some "gzip" ∧
    hGet (mainOutboundHeaders [("Accept-Encoding", "gzip")] "/rs/add") "host"
      = some "ecsc-expat.sy" := by
  exact ⟨rfl, rfl⟩

/-- C9 (amended): the part_000 `proxyToTarget` forward-header set contains
none of `host`, `content-length`, `accept-encoding`, `connection`, for every
inbound request; the src/main.ts handler instead copies the inbound headers
wholesale, as the concrete conjunct shows for `connection`. -/
theorem claim_C9_hop_by_hop_headers :
    (∀ reqHeaders : List (String × String),
      hGet (proxyForwardHeaders reqHeaders) "host" = none ∧
      hGet (proxyForwardHeaders reqHeaders) "content-length" = none ∧
      hGet (proxyForwardHeaders reqHeaders) "accept-encoding" = none ∧
      hGet (proxyForwardHeaders reqHeaders) "connection" = none) ∧
    hGet (mainOutboundHeaders [("Connection", "keep-alive")] "/x") "connection"
      = some "keep-alive" := by
  refine ⟨fun reqHeaders => ⟨?_, ?_, ?_, ?_⟩, rfl⟩ <;>
  · unfold proxyForwardHeaders
    rw [hGet_hSet_ne (by decide), hGet_hSet_ne (by decide)]
    exact forwardStep_keeps_none (by simp) _ [] rfl

theorem hGetAll_setCookie_fold (scs : List String) :
    ∀ h : List (String × String),
      hGetAll (scs.foldl (fun h sc => hAppend h "set-cookie" (sanitizeSetCookie sc)) h)
          "set-cookie"
        = hGetAll h "set-cookie" ++ scs.map sanitizeSetCookie := by
  induction scs with
  | nil => intro h; simp
  | cons sc t ih =>
    intro h
    simp only [List.foldl_cons, ih, hGetAll_hAppend_self, List.map_cons]
    simp

/-- C10: in the src/main.ts handler, for every non-OPTIONS request, the
client response's `Set-Cookie` values are exactly the sanitised upstream
ones when the path is exactly `/secure/auth/login`, and there are none at
all on any other path — the upstream `Set-Cookie` headers are always
deleted first. -/
theorem claim_C10_set_cookie_paths (method path : String)
    (reqHeaders : List (String × String)) (up : UpstreamResp)
    (hm : method ≠ "OPTIONS") :
    hGetAll (mainHandler method path reqHeaders (.ok up)).headers "set-cookie"
      = if path = "/secure/auth/login"
        then (hGetAll (hNorm up.headers) "set-cookie").map sanitizeSetCookie
        else [] := by
  unfold mainHandler
  rw [if_neg hm]
  show hGetAll (mainResponse path (hGet (hNorm reqHeaders) "origin") up).headers
      "set-cookie" = _
  generalize hGet (hNorm reqHeaders) "origin" = reqOrigin
  unfold mainResponse
  simp only []
  rw [hGetAll_hSet_ne (by decide), hGetAll_hSet_ne (by decide),
      hGetAll_hSet_ne (by decide)]
  have hstep3 : ∀ h2 : List (String × String),
      hGetAll (match reqOrigin with
        | some o =>
          if o = "" then
            hSet (hSet h2 "access-control-allow-origin" "*")
              "access-control-allow-credentials" "true"
          else
            hSet (hSet (hSet h2 "access-control-allow-origin" o)
              "access-control-allow-credentials" "true") "vary" "Origin"
        | none =>
          hSet (hSet h2 "access-control-allow-origin" "*")
            "access-control-allow-credentials" "true") "set-cookie"
      = hGetAll h2 "set-cookie" := by
    intro h2
    cases reqOrigin with
    | none => rw [hGetAll_hSet_ne (by decide), hGetAll_hSet_ne (by decide)]
    | some o =>
      dsimp only
      by_cases ho : o = ""
      · rw [if_pos ho, hGetAll_hSet_ne (by decide), hGetAll_hSet_ne (by decide)]
      · rw [if_neg ho, hGetAll_hSet_ne (by decide), hGetAll_hSet_ne (by decide),
            hGetAll_hSet_ne (by decide)]
  rw [hstep3]
  by_cases hp : path = "/secure/auth/login"
  · by_cases hsc : hGetAll (hNorm up.headers) "set-cookie" ≠ []
    · rw [if_pos ⟨hp, hsc⟩, hGetAll_setCookie_fold, if_pos hsc,
          hGetAll_hDelete_self, if_pos hp]
      simp
    · push_neg at hsc
      rw [if_neg (by intro hand; exact hand.2 hsc), if_neg (by intro hne; exact hne hsc),
          if_pos hp, hsc]
      simp
  · rw [if_neg (by intro hand; exact hp hand.1), if_neg hp]
    by_cases hsc : hGetAll (hNorm up.headers) "set-cookie" ≠ []
    · rw [if_pos hsc, hGetAll_hDelete_self]
    · push_neg at hsc
      rw [if_neg (by intro hne; exact hne hsc)]
      exact hsc

/-- C10 witness: the theorem applied for a GET to `/rs/add` with an upstream
`Set-Cookie`: the client response carries no `Set-Cookie` at all, and for the
login path it carries exactly the sanitised cookie. -/
theorem claim_C10_witness :
    hGetAll (mainHandler "GET" "/rs/add" []
      (.ok { status := 200, headers := [("Set-Cookie", "SESSION=abc; Domain=ecsc-expat.sy")],
             bodyBytes := [] })).headers "set-cookie" = [] ∧
    hGetAll (mainHandler "POST" "/secure/auth/login" []
      (.ok { status := 200, headers := [("Set-Cookie", "SESSION=abc; Domain=ecsc-expat.sy")],
             bodyBytes := [] })).headers "set-cookie"
      = ["SESSION=abc; Path=/; HttpOnly; SameSite=None; Secure"] := by
  constructor
  · rw [claim_C10_set_cookie_paths "GET" "/rs/add" []
      { status := 200, headers := [("Set-Cookie", "SESSION=abc; Domain=ecsc-expat.sy")],
        bodyBytes := [] } (by decide)]
    decide
  · rw [claim_C10_set_cookie_paths "POST" "/secure/auth/login" []
      { status := 200, headers := [("Set-Cookie", "SESSION=abc; Domain=ecsc-expat.sy")],
        bodyBytes := [] } (by decide)]
    decide

/-- C6: the claim as frozen fails: the gateway-level 502 failure response of
the src/main.ts handler (cited lines 130-138, `new Response(body,
\x7b status: 502 \x7d)`) carries no `Access-Control-Allow-Origin` header at
all. -/
theorem claim_C6_counterexample :
    hGet (mainHandler "GET" "/rs/add" [("Origin", "https://caller.example")]
        (.error "connection refused")).headers "access-control-allow-origin" = none ∧
    (mainHandler "GET" "/rs/add" [("Origin", "https://caller.example")]
        (.error "connection refused")).status = 502 := by
  exact ⟨rfl, rfl⟩

/-- C6 (amended): every src/main.ts response except the 502 gateway-failure
one carries `Access-Control-Allow-Origin` — the upstream-backed responses
and the OPTIONS preflight both echo the caller's `Origin` when present and
non-empty, and fall back to `*` — but the 502 gateway-failure response
carries no CORS headers at all. -/
theorem claim_C6_cors_headers :
    (∀ (path : String) (reqOrigin : Option String) (up : UpstreamResp),
      hGet (mainResponse path reqOrigin up).headers "access-control-allow-origin"
        = some (jsOrStar reqOrigin)) ∧
    (∀ o : Option String,
      hGet (makeCorsPreflightResponse o).headers "access-control-allow-origin"
        = some (jsOrStar o)) ∧
    (∀ err : String, ∀ method path : String, ∀ reqHeaders, method ≠ "OPTIONS" →
      (mainHandler method path reqHeaders (.error err)).headers
        = [("content-type", "text/plain;charset=UTF-8")]) := by
  refine ⟨fun path reqOrigin up => ?_, fun o => ?_, fun err method path reqHeaders hm => ?_⟩
  · unfold mainResponse
    simp only []
    rw [hGet_hSet_ne (by decide), hGet_hSet_ne (by decide), hGet_hSet_ne (by decide)]
    cases reqOrigin with
    | none =>
      rw [hGet_hSet_ne (by decide), hGet_hSet_self]
      rfl
    | some o =>
      dsimp only
      by_cases ho : o = ""
      · rw [if_pos ho, hGet_hSet_ne (by decide), hGet_hSet_self]
        simp [jsOrStar, ho]
      · rw [if_neg ho, hGet_hSet_ne (by decide), hGet_hSet_ne (by decide), hGet_hSet_self]
        simp [jsOrStar, ho]
  · unfold makeCorsPreflightResponse
    simp only []
    rw [hGet_hSet_ne (by decide), hGet_hSet_ne (by decide), hGet_hSet_ne (by decide),
        hGet_hSet_ne (by decide), hGet_hSet_self]
  · unfold mainHandler
    rw [if_neg hm]

/-- C6 witness: the theorem applied at a request carrying
`Origin: https://caller.example` (echoed) and at one without (starred). -/
theorem claim_C6_witness :
    hGet (mainResponse "/x" (some "https://caller.example")
        { status := 200, headers := [], bodyBytes := [] }).headers
        "access-control-allow-origin" = some "https://caller.example" ∧
    hGet (makeCorsPreflightResponse none).headers "access-control-allow-origin"
      = some "*" ∧
    (mainHandler "GET" "/x" [] (.error "boom")).headers
      = [("content-type", "text/plain;charset=UTF-8")] := by
  refine ⟨?_, ?_, ?_⟩
  · exact (claim_C6_cors_headers.1 "/x" (some "https://caller.example")
      { status := 200, headers := [], bodyBytes := [] }).trans (by decide)
  · exact (claim_C6_cors_headers.2.1 none).trans (by decide)
  · exact claim_C6_cors_headers.2.2 "boom" "GET" "/x" [] (by decide)

/-- C7: the claim as frozen fails: the second src/main.ts variant answers
every OPTIONS request with `corsPreflightResponse()`, whose
`Access-Control-Allow-Origin` is the literal `*` even when the caller sent
`Origin: https://example.com`. -/
theorem claim_C7_counterexample :
    hGet (handlerV2Preflight [("Origin", "https://example.com")]).headers
        "access-control-allow-origin" = some "*" ∧
    ("*" : String) ≠ "https://example.com" := by
  exact ⟨rfl, by decide⟩

/-- C7 (amended): every OPTIONS response has status 204, an empty body and a
present `Access-Control-Allow-Methods`; `makeCorsPreflightResponse` (first
src/main.ts variant) sets `Access-Control-Allow-Origin` to the caller's
Origin, `*` when absent or empty, while the second variant's
`corsPreflightResponse` always answers with the literal `*`. -/
theorem claim_C7_preflight :
    (∀ o : Option String,
      (makeCorsPreflightResponse o).status = 204 ∧
      (makeCorsPreflightResponse o).body = .empty ∧
      hGet (makeCorsPreflightResponse o).headers "access-control-allow-methods"
        = some "GET,POST,PUT,DELETE,OPTIONS" ∧
      hGet (makeCorsPreflightResponse o).headers "access-control-allow-origin"
        = some (jsOrStar o)) ∧
    (corsPreflightResponse.status = 204 ∧
      corsPreflightResponse.body = .empty ∧
      hGet corsPreflightResponse.headers "access-control-allow-methods"
        = some "GET,POST,OPTIONS" ∧
      hGet corsPreflightResponse.headers "access-control-allow-origin" = some "*") := by
  refine ⟨fun o => ⟨rfl, rfl, ?_, ?_⟩, rfl, rfl, rfl, rfl⟩
  · unfold makeCorsPreflightResponse
    simp only []
    rw [hGet_hSet_ne (by decide), hGet_hSet_ne (by decide), hGet_hSet_ne (by decide),
        hGet_hSet_self]
  · unfold makeCorsPreflightResponse
    simp only []
    rw [hGet_hSet_ne (by decide), hGet_hSet_ne (by decide), hGet_hSet_ne (by decide),
        hGet_hSet_ne (by decide), hGet_hSet_self]

theorem foldl_hAppend_eq (l : List (String × String)) :
    ∀ acc, l.foldl (fun acc kv => hAppend acc kv.1 kv.2) acc = acc ++ l := by
  induction l with
  | nil => intro acc; simp
  | cons kv t ih =>
    intro acc
    rw [List.foldl_cons, ih]
    simp [hAppend]

theorem foldl_hAppend_copy (l : List (String × String)) :
    l.foldl (fun acc kv => hAppend acc kv.1 kv.2) [] = l := by
  simpa using foldl_hAppend_eq l []

theorem replaceFirst_split {pat : List Char} (rep : List Char) :
    ∀ {s : List Char}, containsSub pat s = true →
      ∃ A B, s = A ++ pat ++ B ∧ replaceFirst pat rep s = A ++ rep ++ B := by
  intro s
  induction s with
  | nil =>
    intro h
    simp only [containsSub, decide_eq_true_eq] at h
    exact ⟨[], [], by simp [h], by simp [replaceFirst, h]⟩
  | cons c cs ih =>
    intro h
    by_cases hp : pat.isPrefixOf (c :: cs)
    · obtain ⟨t, ht⟩ := List.isPrefixOf_iff_prefix.mp hp
      refine ⟨[], t, by simp [ht.symm], ?_⟩
      simp only [replaceFirst, hp, if_true, List.nil_append]
      rw [← ht, List.drop_left]
    · have h2 : containsSub pat cs = true := by
        simpa [containsSub, hp] using h
      obtain ⟨A, B, hAB, hrw⟩ := ih h2
      exact ⟨c :: A, B, by simp [hAB], by simp [replaceFirst, hp, hrw]⟩

/-- C4: the claim as frozen fails: for the `text/html` body consisting of the
upstream origin once (N = 1), the rewritten body is exactly the injected
guard script — which itself embeds the literal origin as a quoted constant —
so the output contains the origin once, not zero times. -/
theorem claim_C4_counterexample :
    countSub "https://ecsc-expat.sy:8443".data "https://ecsc-expat.sy:8443".data = 1 ∧
    (proxyToTargetResponse
      { status := 200, headers := [("Content-Type", "text/html")],
        bodyBytes := utf8Encode "https://ecsc-expat.sy:8443".data }).body
      = .text guardInjection ∧
    countSub "https://ecsc-expat.sy:8443".data guardInjection.data = 1 := by
  exact ⟨by decide, by decide, by decide⟩

/-- C4 (amended): for every `text/html` upstream body, the rewritten body is
the body with all left-to-right occurrences of the upstream origin removed in
a single non-rescanning pass, with the guard script inserted at exactly one
position; the outgoing `Content-Type` is set to `text/html; charset=utf-8`;
and the guard script itself embeds the literal origin, so the output is not
free of it. -/
theorem claim_C4_html_rewrite (up : UpstreamResp)
    (hct : containsSub "text/html".data
      ((hGet (hNorm up.headers) "content-type").getD "").data = true) :
    (∃ A B : List Char,
      (proxyToTargetResponse up).body = .text ⟨A ++ guardInjection.data ++ B⟩ ∧
      A ++ B = stripTargetOrigins (utf8DecodeLossy up.bodyBytes)) ∧
    hGet (proxyToTargetResponse up).headers "content-type"
      = some "text/html; charset=utf-8" ∧
    containsSub "https://ecsc-expat.sy:8443".data guardInjection.data = true := by
  refine ⟨?_, ?_, by decide⟩
  · unfold proxyToTargetResponse
    simp only []
    rw [if_pos hct]
    show ∃ A B, BodyVal.text ⟨proxyRewriteHtml (utf8DecodeLossy up.bodyBytes)⟩
        = .text ⟨A ++ guardInjection.data ++ B⟩ ∧ _
    unfold proxyRewriteHtml injectGuard
    by_cases h1 : containsSub "</head>".data (stripTargetOrigins (utf8DecodeLossy up.bodyBytes)) = true
    · obtain ⟨A, B, hAB, hrw⟩ :=
        replaceFirst_split (guardInjection.data ++ "</head>".data) h1
      rw [if_pos h1]
      refine ⟨A, "</head>".data ++ B, ?_, by rw [hAB]; simp⟩
      rw [hrw]
      simp
    · rw [if_neg h1]
      by_cases h2 : containsSub "</body>".data (stripTargetOrigins (utf8DecodeLossy up.bodyBytes)) = true
      · obtain ⟨A, B, hAB, hrw⟩ :=
          replaceFirst_split (guardInjection.data ++ "</body>".data) h2
        rw [if_pos h2]
        refine ⟨A, "</body>".data ++ B, ?_, by rw [hAB]; simp⟩
        rw [hrw]
        simp
      · rw [if_neg h2]
        exact ⟨[], stripTargetOrigins (utf8DecodeLossy up.bodyBytes), by simp, by simp⟩
  · unfold proxyToTargetResponse
    simp only []
    rw [if_pos hct]
    exact hGet_hSet_self _ _ _

/-- C4 witness: the theorem applied at a well-formed HTML body with a
`</head>` tag; the upstream origin occurrences are removed and the guard is
inserted before `</head>`. -/
theorem claim_C4_witness :
    (∃ A B : List Char,
      (proxyToTargetResponse
        { status := 200, headers := [("Content-Type", "text/html; charset=utf-8")],
          bodyBytes := utf8Encode
            "<html><head></head><body><a href=\"https://ecsc-expat.sy:8443/app\">x</a></body></html>".data }).body
        = .text ⟨A ++ guardInjection.data ++ B⟩ ∧
      A ++ B = stripTargetOrigins (utf8DecodeLossy (utf8Encode
        "<html><head></head><body><a href=\"https://ecsc-expat.sy:8443/app\">x</a></body></html>".data))) ∧
    hGet (proxyToTargetResponse
        { status := 200, headers := [("Content-Type", "text/html; charset=utf-8")],
          bodyBytes := utf8Encode
            "<html><head></head><body><a href=\"https://ecsc-expat.sy:8443/app\">x</a></body></html>".data }).headers
        "content-type" = some "text/html; charset=utf-8" := by
  have h := claim_C4_html_rewrite
    { status := 200, headers := [("Content-Type", "text/html; charset=utf-8")],
      bodyBytes := utf8Encode
        "<html><head></head><body><a href=\"https://ecsc-expat.sy:8443/app\">x</a></body></html>".data }
    (by decide)
  exact ⟨h.1, h.2.1⟩

/-- C5: the claim as frozen fails on src/main.ts (cited lines 141-186): the
handler reads every body — non-HTML included — with `text()` and
re-serialises the string, so a non-UTF-8 byte such as `0xFF` reaches the
client as the replacement character's bytes `EF BF BD`, not byte-for-byte. -/
theorem claim_C5_counterexample :
    bodyWireBytes ((mainHandler "GET" "/img.png" []
      (.ok { status := 200, headers := [("Content-Type", "image/png")],
             bodyBytes := [0xFF] })).body) = [0xEF, 0xBF, 0xBD] ∧
    [0xEF, 0xBF, 0xBD] ≠ [0xFF] := by
  exact ⟨by decide, by decide⟩

/-- C5 (amended): in the part_000 `proxyToTarget`, every non-`text/html`
upstream body is returned byte-for-byte (`arrayBuffer` passthrough) with the
original `Content-Type` preserved unmodified; the src/main.ts handler
instead pipes every body through lossy UTF-8 text decoding, so its client
bytes are the re-encoding of the decoded text — the identity only for valid
UTF-8 bodies. -/
theorem claim_C5_non_html_passthrough (up : UpstreamResp)
    (hct : containsSub "text/html".data
      ((hGet (hNorm up.headers) "content-type").getD "").data = false) :
    (proxyToTargetResponse up).body = .bytes up.bodyBytes ∧
    hGet (proxyToTargetResponse up).headers "content-type"
      = hGet (hNorm up.headers) "content-type" ∧
    (∀ bytes : List Nat, bodyWireBytes ((mainResponse "/x" none
        { status := 200, headers := [], bodyBytes := bytes }).body)
      = utf8Encode (utf8DecodeLossy bytes)) := by
  refine ⟨?_, ?_, fun bytes => rfl⟩
  · unfold proxyToTargetResponse
    simp only []
    rw [if_neg (by simp [hct])]
  · unfold proxyToTargetResponse
    simp only []
    rw [if_neg (by simp [hct])]
    have hbase : hGet ((hNorm up.headers).foldl (fun acc kv => hAppend acc kv.1 kv.2) [])
        "content-type" = hGet (hNorm up.headers) "content-type" := by
      rw [foldl_hAppend_copy]
    have h1eq : hGet (match hGet (hNorm up.headers) "location" with
        | some loc =>
          match parseURL targetURL loc.data with
          | some locUrl =>
            if urlOrigin locUrl = upstreamOrigin then
              hSet ((hNorm up.headers).foldl (fun acc kv => hAppend acc kv.1 kv.2) [])
                "location" ⟨locUrl.pathname ++ locUrl.search ++ locUrl.hash⟩
            else (hNorm up.headers).foldl (fun acc kv => hAppend acc kv.1 kv.2) []
          | none => (hNorm up.headers).foldl (fun acc kv => hAppend acc kv.1 kv.2) []
        | none => (hNorm up.headers).foldl (fun acc kv => hAppend acc kv.1 kv.2) [])
        "content-type" = hGet (hNorm up.headers) "content-type" := by
      cases hloc : hGet (hNorm up.headers) "location" with
      | none => exact hbase
      | some loc =>
        dsimp only
        cases hparse : parseURL targetURL loc.data with
        | none => exact hbase
        | some locUrl =>
          dsimp only
          by_cases ho : urlOrigin locUrl = upstreamOrigin
          · rw [if_pos ho, hGet_hSet_ne (by decide)]
            exact hbase
          · rw [if_neg ho]
            exact hbase
    dsimp only
    cases hup : hGet (hNorm up.headers) "content-type" with
    | none =>
      rw [hup] at h1eq
      simp only [Option.getD_none]
      rw [if_neg (by simp)]
      rw [hGet_hSet_ne (by decide)]
      exact h1eq
    | some s =>
      rw [hup] at h1eq
      simp only [Option.getD_some]
      by_cases hs : s = ""
      · rw [if_neg (by simp [hs])]
        rw [hGet_hSet_ne (by decide)]
        exact h1eq
      · rw [if_pos (by simpa using hs), hGet_hSet_self]

/-- C5 witness: the theorem applied at a PNG upstream response: bytes pass
through untouched and the content type is preserved. -/
theorem claim_C5_witness :
    (proxyToTargetResponse
      { status := 200, headers := [("Content-Type", "image/png")],
        bodyBytes := [137, 80, 78, 71] }).body = .bytes [137, 80, 78, 71] ∧
    hGet (proxyToTargetResponse
      { status := 200, headers := [("Content-Type", "image/png")],
        bodyBytes := [137, 80, 78, 71] }).headers "content-type" = some "image/png" ∧
    bodyWireBytes ((mainResponse "/x" none
        { status := 200, headers := [], bodyBytes := [104, 105] }).body) = [104, 105] := by
  have h := claim_C5_non_html_passthrough
    { status := 200, headers := [("Content-Type", "image/png")],
      bodyBytes := [137, 80, 78, 71] } (by decide)
  exact ⟨h.1, h.2.1.trans (by decide), (h.2.2 [104, 105]).trans (by decide)⟩

end Exa
